import Mathlib

/-!
Shallow embedding of the URL routing configuration of the `user_auth`
repository (`src/user_auth/urls.py` and `src/accounts/urls.py`).

The repository declares two Django routing tables:

* `accounts/urls.py`:
    urlpatterns = [
      path('register/', register, name='register'),
      path('login/', CustomLoginView.as_view(), name='login'),
      path('logout/', LogoutView.as_view(), name='logout')
    ]

* `user_auth/urls.py`:
    urlpatterns = [
      path('admin/', admin.site.urls),
      path('accounts/', include('accounts.urls')),
      path('', views.home, name='home'),
    ]

Request paths are modelled as `List Char` (the part of the URL after the
leading slash, as Django hands it to its resolver).  All patterns in the
source are literal `path()` patterns with no converters, so pattern
matching is literal-prefix stripping; a view pattern must consume the
whole remaining path, while an `include` pattern strips a prefix and
delegates the remainder to the sub-table, falling through to later
entries of the enclosing table when the sub-table has no match (Django's
documented resolver behaviour).  The view callables (`register`,
`CustomLoginView.as_view()`, `LogoutView.as_view()`, `views.home`) and
the admin site (`admin.site.urls`, external framework code) are opaque
to this fragment and are modelled as an enumerated type of handlers.
-/

/-- The opaque view callables referenced by the two routing tables. -/
inductive Handler where
  | adminSite
  | register
  | customLoginView
  | logoutView
  | home
deriving DecidableEq, Repr

/-- One entry of a leaf routing table: `path(pattern, handler, name=...)`. -/
structure Route where
  pattern : List Char
  handler : Handler
  name : Option String
deriving DecidableEq, Repr

/-- The target of a root-table entry: either a view callable or an
`include(...)` of a sub-table. -/
inductive RootTarget where
  | view : Handler → RootTarget
  | incl : List Route → RootTarget
deriving DecidableEq, Repr

/-- One entry of the root routing table. -/
structure RootEntry where
  pattern : List Char
  target : RootTarget
  name : Option String
deriving DecidableEq, Repr

/-- The `urlpatterns` list of `src/accounts/urls.py`. -/
def accounts_urlpatterns : List Route :=
  [⟨"register/".data, Handler.register, some "register"⟩,
   ⟨"login/".data, Handler.customLoginView, some "login"⟩,
   ⟨"logout/".data, Handler.logoutView, some "logout"⟩]

/-- The `urlpatterns` list of `src/user_auth/urls.py`.  Here
`admin.site.urls` is external framework code, modelled as the opaque
`adminSite` handler. -/
def user_auth_urlpatterns : List RootEntry :=
  [⟨"admin/".data, RootTarget.view Handler.adminSite, none⟩,
   ⟨"accounts/".data, RootTarget.incl accounts_urlpatterns, none⟩,
   ⟨"".data, RootTarget.view Handler.home, some "home"⟩]

/-- Literal pattern matching: strip `pat` from the front of `p`,
returning the remainder, or `none` when `pat` is not an initial
segment of `p`. -/
def stripLit : List Char → List Char → Option (List Char)
  | [], p => some p
  | _ :: _, [] => none
  | c :: cs, d :: ds => if c = d then stripLit cs ds else none

/-- Resolution against a leaf table: first entry whose pattern consumes
the whole path wins. -/
def resolveSub : List Route → List Char → Option Handler
  | [], _ => none
  | r :: rs, p =>
    if stripLit r.pattern p = some [] then some r.handler else resolveSub rs p

/-- Resolution against the root table.  A `view` entry must consume the
whole path; an `incl` entry strips its pattern and delegates the
remainder to the sub-table, trying later entries when the sub-table
fails. -/
def resolveRoot : List RootEntry → List Char → Option Handler
  | [], _ => none
  | e :: es, p =>
    match e.target with
    | RootTarget.view h =>
      if stripLit e.pattern p = some [] then some h else resolveRoot es p
    | RootTarget.incl sub =>
      match stripLit e.pattern p with
      | some rest =>
        match resolveSub sub rest with
        | some h => some h
        | none => resolveRoot es p
      | none => resolveRoot es p

/-- A match over an entry's target, as the spec describes it: a `view`
entry matches when its pattern consumes the whole path, an `incl` entry
matches when its pattern strips to a remainder that some sub-table
entry matches. -/
def entryMatches (e : RootEntry) (p : List Char) : Prop :=
  match e.target with
  | RootTarget.view _ => stripLit e.pattern p = some []
  | RootTarget.incl sub => ∃ rest, stripLit e.pattern p = some rest ∧ resolveSub sub rest ≠ none

/-- A leaf route matches a path when its pattern consumes the whole path. -/
def routeMatches (r : Route) (p : List Char) : Prop :=
  stripLit r.pattern p = some []

instance (r : Route) (p : List Char) : Decidable (routeMatches r p) := by
  unfold routeMatches; infer_instance

theorem stripLit_eq_some (pat : List Char) :
    ∀ (p r : List Char), stripLit pat p = some r ↔ p = pat ++ r := by
  induction pat with
  | nil =>
    intro p r
    simp [stripLit]
  | cons c cs ih =>
    intro p r
    cases p with
    | nil => simp [stripLit]
    | cons d ds =>
      by_cases h : c = d
      · subst h
        simp [stripLit, ih]
      · simp only [stripLit, if_neg h, List.cons_append]
        constructor
        · intro h'
          exact Option.noConfusion h'
        · intro h'
          injection h' with h1 h2
          exact absurd h1.symm h

theorem stripLit_append (pat s : List Char) : stripLit pat (pat ++ s) = some s :=
  (stripLit_eq_some pat (pat ++ s) s).mpr rfl

theorem stripLit_whole (pat p : List Char) : stripLit pat p = some [] ↔ p = pat := by
  rw [stripLit_eq_some]
  simp

/-- Closed-form characterization of resolution against the root table of
`src/user_auth/urls.py`: exactly five paths resolve. -/
theorem resolveRoot_eq (p : List Char) :
    resolveRoot user_auth_urlpatterns p =
      if p = "admin/".data then some Handler.adminSite
      else if p = "accounts/register/".data then some Handler.register
      else if p = "accounts/login/".data then some Handler.customLoginView
      else if p = "accounts/logout/".data then some Handler.logoutView
      else if p = [] then some Handler.home
      else none := by
  by_cases h1 : p = "admin/".data
  · subst h1; decide
  by_cases h2 : p = "accounts/register/".data
  · subst h2; decide
  by_cases h3 : p = "accounts/login/".data
  · subst h3; decide
  by_cases h4 : p = "accounts/logout/".data
  · subst h4; decide
  by_cases h5 : p = []
  · subst h5; decide
  simp only [h1, h2, h3, h4, h5, if_false]
  simp only [resolveRoot, user_auth_urlpatterns]
  rw [if_neg (by rw [stripLit_whole]; exact h1)]
  cases hacc : stripLit "accounts/".data p with
  | none =>
    simp only [resolveRoot]
    rw [if_neg (by rw [stripLit_whole]; exact h5)]
  | some rest =>
    have hp : p = "accounts/".data ++ rest := (stripLit_eq_some _ _ _).mp hacc
    have hne : p ≠ [] := by simp [hp, String.data]
    cases hr : resolveSub accounts_urlpatterns rest with
    | some h =>
      exfalso
      simp only [resolveSub, accounts_urlpatterns] at hr
      by_cases hreg : stripLit "register/".data rest = some []
      · exact h2 (by rw [hp, (stripLit_whole _ _).mp hreg]; decide)
      by_cases hlog : stripLit "login/".data rest = some []
      · exact h3 (by rw [hp, (stripLit_whole _ _).mp hlog]; decide)
      by_cases hout : stripLit "logout/".data rest = some []
      · exact h4 (by rw [hp, (stripLit_whole _ _).mp hout]; decide)
      rw [if_neg hreg, if_neg hlog, if_neg hout] at hr
      simp [resolveSub] at hr
    | none =>
      simp only [resolveRoot, hr]
      rw [if_neg (by rw [stripLit_whole]; exact h5)]

/-- The names declared across both routing tables, root table first. -/
def declaredNames : List String :=
  user_auth_urlpatterns.filterMap RootEntry.name ++
    accounts_urlpatterns.filterMap Route.name

/-- C1, counterexample: the claim asserts that the paths `/register/`,
`/login/` and `/logout/` resolve against the root table, but the code
mounts them only under the `accounts/` sub-router, so all three fail to
resolve at top level. -/
theorem C1_counterexample :
    resolveRoot user_auth_urlpatterns "register/".data = none ∧
    resolveRoot user_auth_urlpatterns "login/".data = none ∧
    resolveRoot user_auth_urlpatterns "logout/".data = none := by
  decide

/-- C1, amended: resolution against the root table succeeds exactly on
the five paths `/admin/`, `/accounts/register/`, `/accounts/login/`,
`/accounts/logout/` and `/`; in particular `/register/`, `/login/` and
`/logout/` resolve only under the `/accounts/` prefix. -/
theorem C1_exposed_path_set (p : List Char) :
    (resolveRoot user_auth_urlpatterns p).isSome ↔
      (p = "admin/".data ∨ p = "accounts/register/".data ∨
       p = "accounts/login/".data ∨ p = "accounts/logout/".data ∨ p = []) := by
  rw [resolveRoot_eq]
  split_ifs with a b c d e <;> simp_all

/-- C2: the sub-router of `src/accounts/urls.py` has exactly three
entries, mapping `register/` to the `register` view, `login/` to
`CustomLoginView`, and `logout/` to `LogoutView`, each with the matching
route name; resolution of each of the three paths returns the matching
handler. -/
theorem C2_sub_router_routes :
    accounts_urlpatterns.length = 3 ∧
    accounts_urlpatterns.map Route.pattern =
      ["register/".data, "login/".data, "logout/".data] ∧
    accounts_urlpatterns.map Route.handler =
      [Handler.register, Handler.customLoginView, Handler.logoutView] ∧
    accounts_urlpatterns.map Route.name =
      [some "register", some "login", some "logout"] ∧
    resolveSub accounts_urlpatterns "register/".data = some Handler.register ∧
    resolveSub accounts_urlpatterns "login/".data = some Handler.customLoginView ∧
    resolveSub accounts_urlpatterns "logout/".data = some Handler.logoutView := by
  decide

/-- C3: the root router of `src/user_auth/urls.py` has exactly three
entries, in order: `admin/` mapped to the admin site, `accounts/`
delegating to the accounts sub-router, and the empty pattern mapped to
the `home` view with name `home`. -/
theorem C3_root_router_routes :
    user_auth_urlpatterns.length = 3 ∧
    user_auth_urlpatterns.map RootEntry.pattern =
      ["admin/".data, "accounts/".data, []] ∧
    user_auth_urlpatterns.map RootEntry.target =
      [RootTarget.view Handler.adminSite,
       RootTarget.incl accounts_urlpatterns,
       RootTarget.view Handler.home] ∧
    user_auth_urlpatterns.map RootEntry.name = [none, none, some "home"] := by
  decide

/-- C5: each declared route name (`register`, `login`, `logout`, `home`)
appears exactly once across both routing tables, and the list of
declared names has no duplicate, so reverse lookup from a name to its
entry is a well-defined function. -/
theorem C5_names_unique :
    declaredNames.Nodup ∧
    declaredNames.count "register" = 1 ∧
    declaredNames.count "login" = 1 ∧
    declaredNames.count "logout" = 1 ∧
    declaredNames.count "home" = 1 ∧
    declaredNames.length = 4 := by
  decide

/-- C9: the empty pattern matches only the root path: a path resolves to
the `home` view exactly when it is the empty path. -/
theorem C9_home_only_at_root (p : List Char) :
    resolveRoot user_auth_urlpatterns p = some Handler.home ↔ p = [] := by
  rw [resolveRoot_eq]
  split_ifs with a b c d e
  · subst a; decide
  · subst b; decide
  · subst c; decide
  · subst d; decide
  · subst e; decide
  · simp [e]

theorem resolveSub_none_iff (rs : List Route) (p : List Char) :
    resolveSub rs p = none ↔ ∀ r ∈ rs, ¬ routeMatches r p := by
  induction rs with
  | nil => simp [resolveSub]
  | cons r rs ih =>
    by_cases h : stripLit r.pattern p = some []
    · simp [resolveSub, if_pos h, routeMatches, h]
    · simp [resolveSub, if_neg h, ih, routeMatches, h]

theorem resolveRoot_none_iff (es : List RootEntry) (p : List Char) :
    resolveRoot es p = none ↔ ∀ e ∈ es, ¬ entryMatches e p := by
  induction es with
  | nil => simp [resolveRoot]
  | cons e es ih =>
    obtain ⟨pat, tgt, nm⟩ := e
    cases tgt with
    | view h =>
      by_cases hc : stripLit pat p = some []
      · simp [resolveRoot, entryMatches, hc]
      · simp [resolveRoot, entryMatches, hc, ih]
    | incl sub =>
      cases hs : stripLit pat p with
      | none => simp [resolveRoot, entryMatches, hs, ih]
      | some rest =>
        cases hr : resolveSub sub rest with
        | some hh => simp [resolveRoot, entryMatches, hs, hr]
        | none => simp [resolveRoot, entryMatches, hs, hr, ih]

/-- C6: resolution against the root table fails (the framework's 404
outcome, modelled as `none`) exactly when no entry matches the path,
sub-router patterns included; it succeeds exactly when some entry
matches. -/
theorem C6_unmatched_resolves_none (p : List Char) :
    (resolveRoot user_auth_urlpatterns p = none ↔
      ∀ e ∈ user_auth_urlpatterns, ¬ entryMatches e p) ∧
    ((resolveRoot user_auth_urlpatterns p).isSome ↔
      ∃ e ∈ user_auth_urlpatterns, entryMatches e p) := by
  constructor
  · exact resolveRoot_none_iff _ _
  · rw [Option.isSome_iff_ne_none, Ne, resolveRoot_none_iff]
    push_neg
    rfl

/-- C4: resolution against a leaf routing table is first-match: whenever
some entry matches the path, the handler returned is that of the entry
at the earliest matching index, and no earlier entry matches. -/
theorem C4_first_match_wins (rs : List Route) (p : List Char)
    (hm : ∃ r ∈ rs, routeMatches r p) :
    ∃ i, ∃ hi : i < rs.length,
      resolveSub rs p = some ((rs.get ⟨i, hi⟩).handler) ∧
      routeMatches (rs.get ⟨i, hi⟩) p ∧
      ∀ j, ∀ hj : j < rs.length, j < i → ¬ routeMatches (rs.get ⟨j, hj⟩) p := by
  induction rs with
  | nil => simp at hm
  | cons r rs ih =>
    by_cases h : routeMatches r p
    · have h' : stripLit r.pattern p = some [] := h
      refine ⟨0, Nat.succ_pos _, ?_, ?_, ?_⟩
      · simp [resolveSub, if_pos h']
      · simpa using h
      · intro j hj hlt
        exact absurd hlt (Nat.not_lt_zero j)
    · have h' : ¬ stripLit r.pattern p = some [] := h
      have hm' : ∃ x ∈ rs, routeMatches x p := by
        rcases hm with ⟨x, hx, hxm⟩
        rcases List.mem_cons.mp hx with rfl | hx'
        · exact absurd hxm h
        · exact ⟨x, hx', hxm⟩
      rcases ih hm' with ⟨i, hi, hres, hmatch, hfirst⟩
      refine ⟨i + 1, Nat.succ_lt_succ hi, ?_, ?_, ?_⟩
      · simp only [resolveSub, if_neg h']
        simpa using hres
      · simpa using hmatch
      · intro j hj hlt
        cases j with
        | zero => simpa using h
        | succ k =>
          have hk : k < rs.length := Nat.lt_of_succ_lt_succ hj
          have := hfirst k hk (Nat.lt_of_succ_lt_succ hlt)
          simpa using this

/-- Witness for C4 at the concrete sub-router and the login path, whose
first matching entry sits at index 1. -/
theorem C4_first_match_wins_witness :
    (∃ r ∈ accounts_urlpatterns, routeMatches r "login/".data) ∧
    (∃ i, ∃ hi : i < accounts_urlpatterns.length,
      resolveSub accounts_urlpatterns "login/".data =
        some ((accounts_urlpatterns.get ⟨i, hi⟩).handler) ∧
      routeMatches (accounts_urlpatterns.get ⟨i, hi⟩) "login/".data ∧
      ∀ j, ∀ hj : j < accounts_urlpatterns.length, j < i →
        ¬ routeMatches (accounts_urlpatterns.get ⟨j, hj⟩) "login/".data) :=
  ⟨by decide, C4_first_match_wins accounts_urlpatterns "login/".data (by decide)⟩

/-- State-passing resolution against a leaf table: returns the table as
it stands after the resolution step, together with the outcome. -/
def resolveSubState : List Route → List Char → List Route × Option Handler
  | [], _ => ([], none)
  | r :: rs, p =>
    if stripLit r.pattern p = some [] then (r :: rs, some r.handler)
    else
      let res := resolveSubState rs p
      (r :: res.1, res.2)

/-- State-passing resolution against the root table, threading the
consulted sub-tables back into their entries. -/
def resolveRootState : List RootEntry → List Char → List RootEntry × Option Handler
  | [], _ => ([], none)
  | e :: es, p =>
    match e.target with
    | RootTarget.view h =>
      if stripLit e.pattern p = some [] then (e :: es, some h)
      else
        let res := resolveRootState es p
        (e :: res.1, res.2)
    | RootTarget.incl sub =>
      match stripLit e.pattern p with
      | some rest =>
        let sres := resolveSubState sub rest
        match sres.2 with
        | some h => (⟨e.pattern, RootTarget.incl sres.1, e.name⟩ :: es, some h)
        | none =>
          let res := resolveRootState es p
          (⟨e.pattern, RootTarget.incl sres.1, e.name⟩ :: res.1, res.2)
      | none =>
        let res := resolveRootState es p
        (e :: res.1, res.2)

theorem resolveSubState_eq (rs : List Route) (p : List Char) :
    resolveSubState rs p = (rs, resolveSub rs p) := by
  induction rs with
  | nil => rfl
  | cons r rs ih =>
    by_cases h : stripLit r.pattern p = some []
    · simp [resolveSubState, resolveSub, if_pos h]
    · simp [resolveSubState, resolveSub, if_neg h, ih]

theorem resolveRootState_eq (es : List RootEntry) (p : List Char) :
    resolveRootState es p = (es, resolveRoot es p) := by
  induction es with
  | nil => rfl
  | cons e es ih =>
    obtain ⟨pat, tgt, nm⟩ := e
    cases tgt with
    | view h =>
      by_cases hc : stripLit pat p = some []
      · simp [resolveRootState, resolveRoot, hc]
      · simp [resolveRootState, resolveRoot, hc, ih]
    | incl sub =>
      cases hs : stripLit pat p with
      | none => simp [resolveRootState, resolveRoot, hs, ih]
      | some rest =>
        cases hr : resolveSub sub rest with
        | some h => simp [resolveRootState, resolveRoot, hs, hr, resolveSubState_eq]
        | none => simp [resolveRootState, resolveRoot, hs, hr, resolveSubState_eq, ih]

/-- C7: the routing tables are read-only configuration: a resolution
step returns both tables unchanged, and its outcome agrees with the
pure resolver. -/
theorem C7_tables_unchanged (p : List Char) :
    (resolveRootState user_auth_urlpatterns p).1 = user_auth_urlpatterns ∧
    (resolveSubState accounts_urlpatterns p).1 = accounts_urlpatterns ∧
    (resolveRootState user_auth_urlpatterns p).2 = resolveRoot user_auth_urlpatterns p := by
  simp [resolveRootState_eq, resolveSubState_eq]

/-- C8: inclusion composes by stripping the mount part of the path:
resolving any path of the form the accounts mount followed by a suffix
against the root table gives exactly the sub-router's result on the
suffix. -/
theorem C8_include_strips_mount (s : List Char) :
    resolveRoot user_auth_urlpatterns ("accounts/".data ++ s) =
      resolveSub accounts_urlpatterns s := by
  have hd : "accounts/".data = ['a', 'c', 'c', 'o', 'u', 'n', 't', 's', '/'] := rfl
  have h1 : stripLit "admin/".data ("accounts/".data ++ s) = none := rfl
  have h2 : stripLit "accounts/".data ("accounts/".data ++ s) = some s :=
    stripLit_append _ _
  simp only [resolveRoot, user_auth_urlpatterns, h1, h2]
  cases hr : resolveSub accounts_urlpatterns s with
  | some h => simp [hr]
  | none => simp [hr, resolveRoot, stripLit, hd]

/-- C10: resolution is deterministic: two resolutions of the same path
against the root table yield the same outcome. -/
theorem C10_deterministic (p : List Char) (r₁ r₂ : Option Handler)
    (h₁ : resolveRoot user_auth_urlpatterns p = r₁)
    (h₂ : resolveRoot user_auth_urlpatterns p = r₂) : r₁ = r₂ :=
  h₁.symm.trans h₂

/-- Witness for C10 at the root path. -/
theorem C10_deterministic_witness :
    resolveRoot user_auth_urlpatterns [] = some Handler.home ∧
    (some Handler.home : Option Handler) = some Handler.home :=
  ⟨by decide,
   C10_deterministic [] (some Handler.home) (some Handler.home) (by decide) (by decide)⟩
